import Mathlib

/-! The API state backend of machinery (`v1/backends/api.go`).

A shallow embedding of `APIBackend`: the task and group operations, the two
decoding helpers `doTaskRequest` / `doJobRequest` and the transport helper
`doRequest`.

Conventions of the embedding.

* A Go slice is a `List` (the nil slice is `[]`), a Go pointer is an `Option`,
  a Go `int` is an `Int` (the only arithmetic is a counter bounded by the length
  of a slice, so it never wraps), a Go `error` is its message.
* `[]byte` payloads are an abstract type `Bytes`: the backend never looks inside
  them, it hands them to `encoding/json` and to the HTTP client.
* What `api.go` takes from other packages is a parameter: the state constants of
  package `tasks` and the `encoding/json` functions are the fields of `Deps`,
  the HTTP client is the `client` field of `APIBackend`.
* The remote store is the only state.  The client's `Do` is a function of the
  request and of the state of the world `σ`; every operation threads `σ`.
-/

namespace Backends

/-! ## Entities -/

namespace tasks

/-- A result value of a task (`tasks.TaskResult`): carried, never inspected here. -/
structure TaskResult where
  Value : String
  deriving DecidableEq, Repr

/-- The normalized view of a task (`tasks.TaskState`). -/
structure TaskState where
  TaskUUID : String
  State : String
  Results : List (Option TaskResult)
  Error : String
  deriving DecidableEq, Repr

/-- A task signature (`tasks.Signature`); only `UUID` is read by this backend. -/
structure Signature where
  UUID : String
  Name : String
  deriving DecidableEq, Repr

end tasks

/-- The Go type `TaskArguments`, `[]map[string]interface{}`, values kept as text. -/
abbrev TaskArguments := List (List (String × String))

/-- The Go struct `UpdateTask`. -/
structure UpdateTask where
  Status : String
  Result : List (Option tasks.TaskResult)
  Error : String
  deriving DecidableEq, Repr

/-- The zero value `UpdateTask{}`. -/
def UpdateTask.zero : UpdateTask := { Status := "", Result := [], Error := "" }

/-- The Go struct `Task`. -/
structure Task where
  UUID : String
  Name : String
  Status : String
  Args : TaskArguments
  Result : List (Option tasks.TaskResult)
  Error : String
  JobUUID : Option String
  ExecutionOrder : Int
  CreatedAt : Int
  UpdatedAt : Int
  DeletedAt : Option Int
  deriving DecidableEq, Repr

/-- The Go struct `Job`; the field `Type` is `JobType` here (`Type` is reserved). -/
structure Job where
  UUID : String
  Name : String
  Status : String
  Tasks : List Task
  JobType : String
  CreatedAt : Int
  UpdatedAt : Int
  DeletedAt : Option Int
  deriving DecidableEq, Repr

/-! ## What `api.go` takes from other packages -/

namespace strings

/-- The function `strings.ToUpper` on ASCII text: `a`..`z` go to `A`..`Z`.  Go also
maps the letters outside ASCII; none of them has `G`, `E` or `T` as its upper
case, so the comparison with `"GET"` in `doRequest` is the same. -/
def ToUpper (s : String) : String := String.mk (s.data.map Char.toUpper)

end strings

namespace config

/-- The part of `config.APIConfig` this backend reads. -/
structure APIConfig where
  BaseURL : String
  deriving DecidableEq, Repr

/-- The part of `config.Config` this backend reads. -/
structure Config where
  APIConfig : APIConfig
  deriving DecidableEq, Repr

end config

namespace fasthttp

/-- What `doRequest` sets on the `fasthttp.Request` it acquires.  `Body` is
`none` when `AppendBody` was not called. -/
structure Request (Bytes : Type) where
  URI : String
  Method : String
  ContentType : String
  Body : Option Bytes

/-- What `doRequest` reads from the `fasthttp.Response`. -/
structure Response (Bytes : Type) where
  StatusCode : Int
  Body : Bytes

/-- The outcome of `client.Do(req, resp)`: the response as the call leaves it and
the error the call returns (`none` for nil). -/
structure DoResult (Bytes : Type) where
  resp : Response Bytes
  err : Option String

/-- The HTTP client: `Do` is the only method used.  `σ` is the state of the world
(the remote store); a call may change it. -/
structure Client (Bytes σ : Type) where
  Do : Request Bytes → σ → DoResult Bytes × σ

end fasthttp

/-- The value of the `body interface{}` parameter of `doRequest`: the nil
interface, or an interface holding a `*UpdateTask`, which may be a nil pointer
(this is what `doTaskRequest` passes, so its argument is never the nil
interface). -/
inductive Body where
  | nil : Body
  | updateTask : Option UpdateTask → Body
  deriving DecidableEq, Repr

/-- The pointer an interface value holds; the nil interface holds none. -/
def Body.pointer : Body → Option UpdateTask
  | Body.nil => none
  | Body.updateTask p => p

/-- The names imported from `tasks` and `encoding/json`.

* `StatePending` .. `StateFailure`: the six state constants of package `tasks`.
* `Marshal p`: `json.Marshal(body)` for a `body` holding the pointer `p`.
* `UnmarshalTask b`, `UnmarshalJob b`: `json.Unmarshal(b, &task)`, `(b, &job)`. -/
structure Deps (Bytes : Type) where
  StatePending : String
  StateReceived : String
  StateStarted : String
  StateRetry : String
  StateSuccess : String
  StateFailure : String
  Marshal : Option UpdateTask → Except String Bytes
  UnmarshalTask : Bytes → Except String Task
  UnmarshalJob : Bytes → Except String Job

/-- The Go struct `APIBackend`. -/
structure APIBackend (Bytes σ : Type) where
  client : fasthttp.Client Bytes σ
  cnf : config.Config

variable {Bytes σ : Type}

/-! ## The transport helper -/

/-- The message of the error `doRequest` returns on a status code other than 200. -/
def statusError (method uri : String) (code : Int) : String :=
  "error calling to " ++ method ++ " " ++ uri ++ " with status code " ++ toString code

/-- The message of the error `doRequest` returns when `json.Marshal` fails. -/
def marshalError (method uri : String) : String :=
  "error parsing to json while calling " ++ method ++ uri

/-- The message of the error of `doTaskRequest` and `doJobRequest` when
`json.Unmarshal` fails. -/
def parseError (uuid : String) : String :=
  "error parsing task " ++ uuid

/-- Lines 247-250 of `doRequest`: the acquired request with its URI, method and
content type set, no body yet. -/
def acquireRequest (a : APIBackend Bytes σ) (uri method : String) : fasthttp.Request Bytes :=
  { URI := a.cnf.APIConfig.BaseURL ++ uri
    Method := strings.ToUpper method
    ContentType := "application/json"
    Body := none }

/-- Lines 247-260 of `doRequest`: the request as it is handed to `client.Do`, or
the error returned before any exchange. -/
def newRequest (D : Deps Bytes) (a : APIBackend Bytes σ) (uri method : String) (body : Body) :
    Except String (fasthttp.Request Bytes) :=
  let req := acquireRequest a uri method
  if strings.ToUpper method ≠ "GET" ∧ body ≠ Body.nil then
    match D.Marshal body.pointer with
    | .error _ => .error (marshalError method uri)
    | .ok bodyBytes => .ok { req with Body := some bodyBytes }
  else .ok req

/-- The method `doRequest`. -/
def doRequest (D : Deps Bytes) (a : APIBackend Bytes σ) (uri method : String) (body : Body)
    (s : σ) : Except String Bytes × σ :=
  match newRequest D a uri method body with
  | .error e => (.error e, s)
  | .ok req =>
    let r := a.client.Do req s
    if r.1.resp.StatusCode ≠ 200 then
      (.error (statusError method uri r.1.resp.StatusCode), r.2)
    else
      (.ok r.1.resp.Body, r.2)

/-- The method `doJobRequest`. -/
def doJobRequest (D : Deps Bytes) (a : APIBackend Bytes σ) (jobUUID method : String) (s : σ) :
    Except String Job × σ :=
  match doRequest D a ("/jobs/" ++ jobUUID) method Body.nil s with
  | (.error err, s1) => (.error err, s1)
  | (.ok bytes, s1) =>
    match D.UnmarshalJob bytes with
    | .error _ => (.error (parseError jobUUID), s1)
    | .ok job => (.ok job, s1)

/-- The method `doTaskRequest`. -/
def doTaskRequest (D : Deps Bytes) (a : APIBackend Bytes σ) (taskUUID method : String)
    (body : Option UpdateTask) (s : σ) : Except String Task × σ :=
  match doRequest D a ("/tasks/" ++ taskUUID) method (Body.updateTask body) s with
  | (.error err, s1) => (.error err, s1)
  | (.ok bytes, s1) =>
    match D.UnmarshalTask bytes with
    | .error _ => (.error (parseError taskUUID), s1)
    | .ok task => (.ok task, s1)

/-! ## Group operations -/

/-- The method `InitGroup`. -/
def InitGroup (_a : APIBackend Bytes σ) (_groupUUID : String) (_taskUUIDs : List String)
    (s : σ) : Option String × σ :=
  (none, s)

/-- The loop of `GroupCompleted`: one step for each task of `job.Tasks`. -/
def countSuccessTasks (D : Deps Bytes) (ts : List Task) : Int :=
  ts.foldl
    (fun count task =>
      if task.Status = D.StateSuccess ∨ task.Status = D.StateFailure then count + 1 else count)
    0

/-- The method `GroupCompleted`. -/
def GroupCompleted (D : Deps Bytes) (a : APIBackend Bytes σ) (groupUUID : String)
    (groupTaskCount : Int) (s : σ) : (Bool × Option String) × σ :=
  match doJobRequest D a groupUUID "GET" s with
  | (.error err, s1) => ((false, some err), s1)
  | (.ok job, s1) => ((decide (countSuccessTasks D job.Tasks = groupTaskCount), none), s1)

/-- The loop of `GroupTaskStates`: one `append` for each task of `job.Tasks`. -/
def collectTaskStates (ts : List Task) : List tasks.TaskState :=
  ts.foldl
    (fun taskStates task =>
      taskStates ++
        [{ TaskUUID := task.UUID, State := task.Status, Results := task.Result,
           Error := task.Error }])
    []

/-- The method `GroupTaskStates`. -/
def GroupTaskStates (D : Deps Bytes) (a : APIBackend Bytes σ) (groupUUID : String)
    (_groupTaskCount : Int) (s : σ) : (List tasks.TaskState × Option String) × σ :=
  match doJobRequest D a groupUUID "GET" s with
  | (.error err, s1) => (([], some err), s1)
  | (.ok job, s1) => ((collectTaskStates job.Tasks, none), s1)

/-- The method `TriggerChord`. -/
def TriggerChord (_a : APIBackend Bytes σ) (_groupUUID : String) (s : σ) :
    (Bool × Option String) × σ :=
  ((true, none), s)

/-! ## Task operations -/

/-- The tail shared by the six `SetState` methods: the task of the reply is
dropped, the error is returned. -/
def errorOf {α : Type} (r : Except String α × σ) : Option String × σ :=
  match r with
  | (.error err, s1) => (some err, s1)
  | (.ok _, s1) => (none, s1)

/-- The method `SetStatePending`. -/
def SetStatePending (D : Deps Bytes) (a : APIBackend Bytes σ) (signature : tasks.Signature)
    (s : σ) : Option String × σ :=
  let UpdateTaskPayload := { UpdateTask.zero with Status := D.StatePending }
  errorOf (doTaskRequest D a signature.UUID "PUT" (some UpdateTaskPayload) s)

/-- The method `SetStateReceived`. -/
def SetStateReceived (D : Deps Bytes) (a : APIBackend Bytes σ) (signature : tasks.Signature)
    (s : σ) : Option String × σ :=
  let UpdateTaskPayload := { UpdateTask.zero with Status := D.StateReceived }
  errorOf (doTaskRequest D a signature.UUID "PUT" (some UpdateTaskPayload) s)

/-- The method `SetStateStarted`. -/
def SetStateStarted (D : Deps Bytes) (a : APIBackend Bytes σ) (signature : tasks.Signature)
    (s : σ) : Option String × σ :=
  let UpdateTaskPayload := { UpdateTask.zero with Status := D.StateStarted }
  errorOf (doTaskRequest D a signature.UUID "PUT" (some UpdateTaskPayload) s)

/-- The method `SetStateRetry`. -/
def SetStateRetry (D : Deps Bytes) (a : APIBackend Bytes σ) (signature : tasks.Signature)
    (s : σ) : Option String × σ :=
  let UpdateTaskPayload := { UpdateTask.zero with Status := D.StateRetry }
  errorOf (doTaskRequest D a signature.UUID "PUT" (some UpdateTaskPayload) s)

/-- The method `SetStateSuccess`. -/
def SetStateSuccess (D : Deps Bytes) (a : APIBackend Bytes σ) (signature : tasks.Signature)
    (results : List (Option tasks.TaskResult)) (s : σ) : Option String × σ :=
  let UpdateTaskPayload := { UpdateTask.zero with Status := D.StateSuccess, Result := results }
  errorOf (doTaskRequest D a signature.UUID "PUT" (some UpdateTaskPayload) s)

/-- The method `SetStateFailure`. -/
def SetStateFailure (D : Deps Bytes) (a : APIBackend Bytes σ) (signature : tasks.Signature)
    (err : String) (s : σ) : Option String × σ :=
  let UpdateTaskPayload := { UpdateTask.zero with Status := D.StateFailure, Error := err }
  errorOf (doTaskRequest D a signature.UUID "PUT" (some UpdateTaskPayload) s)

/-- The method `GetState`. -/
def GetState (D : Deps Bytes) (a : APIBackend Bytes σ) (taskUUID : String) (s : σ) :
    (Option tasks.TaskState × Option String) × σ :=
  match doTaskRequest D a taskUUID "GET" none s with
  | (.error err, s1) => ((none, some err), s1)
  | (.ok task, s1) =>
    ((some { TaskUUID := task.UUID, State := task.Status, Results := task.Result,
             Error := task.Error }, none), s1)

/-- The method `PurgeState`. -/
def PurgeState (_a : APIBackend Bytes σ) (_taskUUID : String) (s : σ) : Option String × σ :=
  (none, s)

/-- The method `PurgeGroupMeta`. -/
def PurgeGroupMeta (_a : APIBackend Bytes σ) (_groupUUID : String) (s : σ) :
    Option String × σ :=
  (none, s)

/-! ## Vocabulary of the statements -/

/-- The six `SetState` operations with their arguments. -/
inductive SetOp where
  | Pending : SetOp
  | Received : SetOp
  | Started : SetOp
  | Retry : SetOp
  | Success : List (Option tasks.TaskResult) → SetOp
  | Failure : String → SetOp
  deriving DecidableEq, Repr

/-- The method of `APIBackend` an operation stands for, applied to a signature. -/
def SetOp.run (D : Deps Bytes) (a : APIBackend Bytes σ) (signature : tasks.Signature) :
    SetOp → σ → Option String × σ
  | SetOp.Pending => SetStatePending D a signature
  | SetOp.Received => SetStateReceived D a signature
  | SetOp.Started => SetStateStarted D a signature
  | SetOp.Retry => SetStateRetry D a signature
  | SetOp.Success results => SetStateSuccess D a signature results
  | SetOp.Failure err => SetStateFailure D a signature err

/-- The target state of an operation. -/
def SetOp.target (D : Deps Bytes) : SetOp → String
  | SetOp.Pending => D.StatePending
  | SetOp.Received => D.StateReceived
  | SetOp.Started => D.StateStarted
  | SetOp.Retry => D.StateRetry
  | SetOp.Success _ => D.StateSuccess
  | SetOp.Failure _ => D.StateFailure

/-- The payload the specification gives an operation: the target state, the
results for Success and none otherwise, the error text for Failure and the
empty text otherwise. -/
def SetOp.payload (D : Deps Bytes) (op : SetOp) : UpdateTask :=
  { Status := op.target D
    Result := match op with
      | SetOp.Success results => results
      | _ => []
    Error := match op with
      | SetOp.Failure err => err
      | _ => "" }

/-- The request of the row "Get task" of the interface table. -/
def getTaskRequest (a : APIBackend Bytes σ) (taskUUID : String) : fasthttp.Request Bytes :=
  { URI := a.cnf.APIConfig.BaseURL ++ ("/tasks/" ++ taskUUID), Method := "GET",
    ContentType := "application/json", Body := none }

/-- The request of the row "Update task" of the interface table, with its body. -/
def putTaskRequest (a : APIBackend Bytes σ) (taskUUID : String) (b : Bytes) :
    fasthttp.Request Bytes :=
  { URI := a.cnf.APIConfig.BaseURL ++ ("/tasks/" ++ taskUUID), Method := "PUT",
    ContentType := "application/json", Body := some b }

/-- The request of the row "Get group" of the interface table. -/
def getJobRequest (a : APIBackend Bytes σ) (jobUUID : String) : fasthttp.Request Bytes :=
  { URI := a.cnf.APIConfig.BaseURL ++ ("/jobs/" ++ jobUUID), Method := "GET",
    ContentType := "application/json", Body := none }

/-- The same backend with a client that also writes every request it is handed
at the end of a log, kept next to the state of the world. -/
def recording (a : APIBackend Bytes σ) : APIBackend Bytes (σ × List (fasthttp.Request Bytes)) where
  client := { Do := fun req w => ((a.client.Do req w.1).1, ((a.client.Do req w.1).2, w.2 ++ [req])) }
  cnf := a.cnf

/-- The requests `doRequest` hands to the client: the one `newRequest` built, or
none when it failed. -/
def sentBy (r : Except String (fasthttp.Request Bytes)) : List (fasthttp.Request Bytes) :=
  match r with
  | .ok req => [req]
  | .error _ => []

/-! ## Concrete worlds

Small executable instances of the parameters, on which the operations are
evaluated. -/

/-- A payload whose content is the value it encodes: the text of a document is
of no interest here, only what `encoding/json` makes of it. -/
inductive Wire where
  | empty : Wire
  | text : String → Wire
  | update : Option UpdateTask → Wire
  | task : Task → Wire
  | job : Job → Wire
  deriving DecidableEq, Repr

/-- The state names of machinery and a codec on `Wire`: `Marshal` never fails,
`Unmarshal` fails on every payload that is not of the entity asked for. -/
def wireDeps : Deps Wire where
  StatePending := "PENDING"
  StateReceived := "RECEIVED"
  StateStarted := "STARTED"
  StateRetry := "RETRY"
  StateSuccess := "SUCCESS"
  StateFailure := "FAILURE"
  Marshal p := .ok (Wire.update p)
  UnmarshalTask b :=
    match b with
    | Wire.task t => .ok t
    | _ => .error "json: cannot unmarshal into Go value of type backends.Task"
  UnmarshalJob b :=
    match b with
    | Wire.job j => .ok j
    | _ => .error "json: cannot unmarshal into Go value of type backends.Job"

/-- A backend whose client answers every request with the same outcome and
leaves the world (here `Unit`) as it is. -/
def fixedBackend (r : fasthttp.DoResult Wire) : APIBackend Wire Unit where
  client := { Do := fun _ s => (r, s) }
  cnf := { APIConfig := { BaseURL := "http://store" } }

/-- A task record with the given id and status, all other fields zero. -/
def mkTask (uuid status : String) : Task :=
  { UUID := uuid, Name := "", Status := status, Args := [], Result := [], Error := "",
    JobUUID := some "g1", ExecutionOrder := 0, CreatedAt := 0, UpdatedAt := 0,
    DeletedAt := none }

/-- The group `g1` with the three given member tasks. -/
def mkJob (ts : List Task) : Job :=
  { UUID := "g1", Name := "", Status := "", Tasks := ts, JobType := "group", CreatedAt := 0,
    UpdatedAt := 0, DeletedAt := none }

/-- The group `g1` in states Success, Success, Pending. -/
def jobPending : Job :=
  mkJob [mkTask "t1" "SUCCESS", mkTask "t2" "SUCCESS", mkTask "t3" "PENDING"]

/-- The group `g1` in states Success, Success, Failure. -/
def jobDone : Job :=
  mkJob [mkTask "t1" "SUCCESS", mkTask "t2" "SUCCESS", mkTask "t3" "FAILURE"]

/-- The group `g1` of which only two tasks, both in state Success, are visible. -/
def jobShort : Job :=
  mkJob [mkTask "t1" "SUCCESS", mkTask "t2" "SUCCESS"]

/-- The outcome "this status code with an empty payload, no error". -/
def status (code : Int) : fasthttp.DoResult Wire :=
  { resp := { StatusCode := code, Body := Wire.empty }, err := none }

/-- The outcome of an exchange that failed before any response was read: `Do`
returns an error and leaves the acquired response as it was, and fasthttp
reports the status code of a response that was never filled as 200, its body as
empty. -/
def refused : fasthttp.DoResult Wire :=
  { resp := { StatusCode := 200, Body := Wire.empty },
    err := some "dial tcp 127.0.0.1:80: connect: connection refused" }

/-- The outcome "200 with this payload, no error". -/
def ok200 (b : Wire) : fasthttp.DoResult Wire :=
  { resp := { StatusCode := 200, Body := b }, err := none }

/-- A remote store that holds one task record, the state of the world.  A `GET` of
the record's URI is answered with the record; a `PUT` there sets the status,
the results and the error of the record to those of the body and is answered
with the new record; every other URI is unknown. -/
def oneTaskBackend : APIBackend Wire Task where
  client :=
    { Do := fun req t =>
        if req.URI = "http://store" ++ ("/tasks/" ++ t.UUID) then
          if req.Method = "GET" then (ok200 (Wire.task t), t)
          else if req.Method = "PUT" then
            match req.Body with
            | some (Wire.update (some u)) =>
              (ok200 (Wire.task { t with Status := u.Status, Result := u.Result,
                                         Error := u.Error }),
                { t with Status := u.Status, Result := u.Result, Error := u.Error })
            | _ => (status 400, t)
          else (status 405, t)
        else (status 404, t) }
  cnf := { APIConfig := { BaseURL := "http://store" } }

/-- The record the store `oneTaskBackend` holds under an id. -/
def storedTask (t : Task) (uuid : String) : Option Task :=
  if t.UUID = uuid then some t else none

/-- A task `t1` that succeeded with one result. -/
def taskWithResult : Task :=
  { mkTask "t1" "SUCCESS" with Result := [some { Value := "3" }] }

/-- The codec `wireDeps` with one behaviour of `json.Marshal` added: a payload that
carries the result value `NaN` is rejected, as `encoding/json` rejects the float
`NaN` (`json: unsupported value: NaN`). -/
def nanDeps : Deps Wire :=
  { wireDeps with
    Marshal := fun p =>
      match p with
      | some u =>
        if u.Result.contains (some { Value := "NaN" }) then
          .error "json: unsupported value: NaN"
        else .ok (Wire.update p)
      | none => .ok (Wire.update none) }

/-! ## Group completion and enumeration -/

/-- Whether a task counts towards completion: its status is one of the two
terminal states. -/
def terminal (D : Deps Bytes) (t : Task) : Bool :=
  decide (t.Status = D.StateSuccess ∨ t.Status = D.StateFailure)

/-- The view `GroupTaskStates` and `GetState` give of a task. -/
def stateOf (t : Task) : tasks.TaskState :=
  { TaskUUID := t.UUID, State := t.Status, Results := t.Result, Error := t.Error }

/-! ## Lemmas and theorems -/

theorem countSuccessTasks_foldl (D : Deps Bytes) (ts : List Task) (c : Int) :
    ts.foldl
      (fun count task =>
        if task.Status = D.StateSuccess ∨ task.Status = D.StateFailure then count + 1
        else count) c = c + (ts.countP (terminal D) : Nat) := by
  induction ts generalizing c with
  | nil => simp
  | cons t ts ih =>
    rw [List.foldl_cons, ih, List.countP_cons]
    by_cases h : t.Status = D.StateSuccess ∨ t.Status = D.StateFailure
    · simp only [terminal, h, if_true, decide_True]
      push_cast
      ring
    · simp [terminal, h]

theorem countSuccessTasks_eq (D : Deps Bytes) (ts : List Task) :
    countSuccessTasks D ts = (ts.countP (terminal D) : Nat) := by
  unfold countSuccessTasks
  rw [countSuccessTasks_foldl]
  simp

theorem collectTaskStates_foldl (ts : List Task) (acc : List tasks.TaskState) :
    ts.foldl
      (fun taskStates task =>
        taskStates ++
          [{ TaskUUID := task.UUID, State := task.Status, Results := task.Result,
             Error := task.Error }]) acc = acc ++ ts.map stateOf := by
  induction ts generalizing acc with
  | nil => simp
  | cons t ts ih => rw [List.foldl_cons, ih]; simp [stateOf]

theorem collectTaskStates_eq (ts : List Task) : collectTaskStates ts = ts.map stateOf := by
  unfold collectTaskStates
  rw [collectTaskStates_foldl]
  simp

theorem GroupCompleted_of_fetch (D : Deps Bytes) (a : APIBackend Bytes σ) (groupUUID : String)
    (n : Int) (s s1 : σ) (job : Job)
    (hfetch : doJobRequest D a groupUUID "GET" s = (.ok job, s1)) :
    GroupCompleted D a groupUUID n s
      = ((decide (((job.Tasks.countP (terminal D) : Nat) : Int) = n), none), s1) := by
  unfold GroupCompleted
  rw [hfetch]
  simp only [countSuccessTasks_eq]

/-- C1. When the Job record is fetched and decoded, `GroupCompleted` returns
`(b, nil)` where `b` is true exactly when the number of member tasks whose
status is `StateSuccess` or `StateFailure` (each entry of `job.Tasks` counted
once) equals `groupTaskCount`; so it is false when that number is smaller and
false when it is larger. -/
theorem GroupCompleted_iff_terminal_count (D : Deps Bytes) (a : APIBackend Bytes σ)
    (groupUUID : String) (groupTaskCount : Int) (s s1 : σ) (job : Job)
    (hfetch : doJobRequest D a groupUUID "GET" s = (.ok job, s1)) :
    GroupCompleted D a groupUUID groupTaskCount s
        = ((decide (((job.Tasks.countP (terminal D) : Nat) : Int) = groupTaskCount), none), s1)
      ∧ ((GroupCompleted D a groupUUID groupTaskCount s).1.1 = true
          ↔ ((job.Tasks.countP (terminal D) : Nat) : Int) = groupTaskCount)
      ∧ (((job.Tasks.countP (terminal D) : Nat) : Int) < groupTaskCount
          → GroupCompleted D a groupUUID groupTaskCount s = ((false, none), s1))
      ∧ (groupTaskCount < ((job.Tasks.countP (terminal D) : Nat) : Int)
          → GroupCompleted D a groupUUID groupTaskCount s = ((false, none), s1)) := by
  have h := GroupCompleted_of_fetch D a groupUUID groupTaskCount s s1 job hfetch
  refine ⟨h, ?_, ?_, ?_⟩
  · rw [h]; simp
  · intro hlt; rw [h]; simp [ne_of_lt hlt]
  · intro hgt; rw [h]; simp [ne_of_gt hgt]

/-- Witness of C1: Success, Success, Pending with count 3 is not complete;
Success, Success, Failure with count 3 is. -/
theorem GroupCompleted_iff_terminal_count_witness :
    GroupCompleted wireDeps (fixedBackend (ok200 (Wire.job jobPending))) "g1" 3 ()
        = ((false, none), ())
      ∧ GroupCompleted wireDeps (fixedBackend (ok200 (Wire.job jobDone))) "g1" 3 ()
        = ((true, none), ()) :=
  ⟨(GroupCompleted_iff_terminal_count wireDeps (fixedBackend (ok200 (Wire.job jobPending)))
      "g1" 3 () () jobPending rfl).1.trans (by decide),
   (GroupCompleted_iff_terminal_count wireDeps (fixedBackend (ok200 (Wire.job jobDone)))
      "g1" 3 () () jobDone rfl).1.trans (by decide)⟩

/-- C2. When the fetched record shows fewer member tasks than expected
(`len(job.Tasks) < groupTaskCount`), `GroupCompleted` returns false, whatever the
statuses of the visible tasks. -/
theorem GroupCompleted_false_of_fewer_tasks (D : Deps Bytes) (a : APIBackend Bytes σ)
    (groupUUID : String) (groupTaskCount : Int) (s s1 : σ) (job : Job)
    (hfetch : doJobRequest D a groupUUID "GET" s = (.ok job, s1))
    (hlen : (job.Tasks.length : Int) < groupTaskCount) :
    GroupCompleted D a groupUUID groupTaskCount s = ((false, none), s1) := by
  rw [GroupCompleted_of_fetch D a groupUUID groupTaskCount s s1 job hfetch]
  have hle : ((job.Tasks.countP (terminal D) : Nat) : Int) ≤ (job.Tasks.length : Int) :=
    Int.ofNat_le.mpr (List.countP_le_length _)
  have hne : ((job.Tasks.countP (terminal D) : Nat) : Int) ≠ groupTaskCount :=
    ne_of_lt (lt_of_le_of_lt hle hlen)
  simp [hne]

/-- Witness of C2: two visible tasks, both in state Success, three expected. -/
theorem GroupCompleted_false_of_fewer_tasks_witness :
    ((jobShort.Tasks.length : Nat) : Int) < 3
      ∧ GroupCompleted wireDeps (fixedBackend (ok200 (Wire.job jobShort))) "g1" 3 ()
        = ((false, none), ()) :=
  ⟨by decide,
   GroupCompleted_false_of_fewer_tasks wireDeps (fixedBackend (ok200 (Wire.job jobShort)))
     "g1" 3 () () jobShort rfl (by decide)⟩

/-- C3. When the Job record is fetched and decoded, `GroupTaskStates` returns one
entry for each entry of `job.Tasks`, in the same order, the i-th entry carrying
the UUID, Status, Result and Error of the i-th task; `groupTaskCount` has no
influence on what the method returns. -/
theorem GroupTaskStates_projects_every_task (D : Deps Bytes) (a : APIBackend Bytes σ)
    (groupUUID : String) (groupTaskCount : Int) (s s1 : σ) (job : Job)
    (hfetch : doJobRequest D a groupUUID "GET" s = (.ok job, s1)) :
    GroupTaskStates D a groupUUID groupTaskCount s = ((job.Tasks.map stateOf, none), s1)
      ∧ (GroupTaskStates D a groupUUID groupTaskCount s).1.1.length = job.Tasks.length
      ∧ (∀ (i : Nat) (t : Task), job.Tasks[i]? = some t →
          ∃ ts, (GroupTaskStates D a groupUUID groupTaskCount s).1.1[i]? = some ts
            ∧ ts.TaskUUID = t.UUID ∧ ts.State = t.Status ∧ ts.Results = t.Result
            ∧ ts.Error = t.Error)
      ∧ (∀ (m : Int) (g : String) (w : σ),
          GroupTaskStates D a g m w = GroupTaskStates D a g groupTaskCount w) := by
  have h : GroupTaskStates D a groupUUID groupTaskCount s
      = ((job.Tasks.map stateOf, none), s1) := by
    unfold GroupTaskStates
    rw [hfetch]
    simp only [collectTaskStates_eq]
  refine ⟨h, ?_, ?_, ?_⟩
  · rw [h]; simp
  · intro i t hi
    refine ⟨stateOf t, ?_, rfl, rfl, rfl, rfl⟩
    rw [h]
    simp [hi]
  · intro m g w
    rfl

/-- Witness of C3: the three tasks of the group `g1`, whatever the count passed. -/
theorem GroupTaskStates_projects_every_task_witness :
    GroupTaskStates wireDeps (fixedBackend (ok200 (Wire.job jobPending))) "g1" 7 ()
      = (([{ TaskUUID := "t1", State := "SUCCESS", Results := [], Error := "" },
           { TaskUUID := "t2", State := "SUCCESS", Results := [], Error := "" },
           { TaskUUID := "t3", State := "PENDING", Results := [], Error := "" }], none), ()) :=
  (GroupTaskStates_projects_every_task wireDeps (fixedBackend (ok200 (Wire.job jobPending)))
    "g1" 7 () () jobPending rfl).1.trans (by decide)

/-! ## The transport helper -/

theorem ToUpper_GET : strings.ToUpper "GET" = "GET" := by decide

theorem ToUpper_PUT : strings.ToUpper "PUT" = "PUT" := by decide

theorem ToUpper_PUT_ne : strings.ToUpper "PUT" ≠ "GET" := by decide

theorem newRequest_get (D : Deps Bytes) (a : APIBackend Bytes σ) (uri method : String)
    (body : Body) (hm : strings.ToUpper method = "GET") :
    newRequest D a uri method body = .ok (acquireRequest a uri method) := by
  simp [newRequest, hm]

theorem newRequest_nil (D : Deps Bytes) (a : APIBackend Bytes σ) (uri method : String) :
    newRequest D a uri method Body.nil = .ok (acquireRequest a uri method) := by
  simp [newRequest]

theorem newRequest_body (D : Deps Bytes) (a : APIBackend Bytes σ) (uri method : String)
    (p : Option UpdateTask) (hm : strings.ToUpper method ≠ "GET") :
    newRequest D a uri method (Body.updateTask p)
      = match D.Marshal p with
        | .error _ => .error (marshalError method uri)
        | .ok b => .ok { acquireRequest a uri method with Body := some b } := by
  simp [newRequest, hm, Body.pointer]

theorem newRequest_getTask (D : Deps Bytes) (a : APIBackend Bytes σ) (taskUUID : String)
    (p : Option UpdateTask) :
    newRequest D a ("/tasks/" ++ taskUUID) "GET" (Body.updateTask p)
      = .ok (getTaskRequest a taskUUID) := by
  rw [newRequest_get D a _ _ _ ToUpper_GET]
  simp [acquireRequest, getTaskRequest, ToUpper_GET]

theorem newRequest_getJob (D : Deps Bytes) (a : APIBackend Bytes σ) (jobUUID : String) :
    newRequest D a ("/jobs/" ++ jobUUID) "GET" Body.nil = .ok (getJobRequest a jobUUID) := by
  rw [newRequest_nil]
  simp [acquireRequest, getJobRequest, ToUpper_GET]

theorem newRequest_putTask (D : Deps Bytes) (a : APIBackend Bytes σ) (taskUUID : String)
    (u : UpdateTask) (b : Bytes) (hb : D.Marshal (some u) = .ok b) :
    newRequest D a ("/tasks/" ++ taskUUID) "PUT" (Body.updateTask (some u))
      = .ok (putTaskRequest a taskUUID b) := by
  rw [newRequest_body D a _ _ _ ToUpper_PUT_ne, hb]
  simp [acquireRequest, putTaskRequest, ToUpper_PUT]

theorem doRequest_of_request (D : Deps Bytes) (a : APIBackend Bytes σ) (uri method : String)
    (body : Body) (s : σ) (req : fasthttp.Request Bytes)
    (hreq : newRequest D a uri method body = .ok req) :
    doRequest D a uri method body s
      = if (a.client.Do req s).1.resp.StatusCode ≠ 200 then
          (.error (statusError method uri (a.client.Do req s).1.resp.StatusCode),
            (a.client.Do req s).2)
        else (.ok (a.client.Do req s).1.resp.Body, (a.client.Do req s).2) := by
  simp [doRequest, hreq]

theorem doRequest_of_status_ne (D : Deps Bytes) (a : APIBackend Bytes σ) (uri method : String)
    (body : Body) (s : σ) (req : fasthttp.Request Bytes)
    (hreq : newRequest D a uri method body = .ok req)
    (hcode : (a.client.Do req s).1.resp.StatusCode ≠ 200) :
    doRequest D a uri method body s
      = (.error (statusError method uri (a.client.Do req s).1.resp.StatusCode),
          (a.client.Do req s).2) := by
  rw [doRequest_of_request D a uri method body s req hreq, if_pos hcode]

theorem doRequest_of_status_ok (D : Deps Bytes) (a : APIBackend Bytes σ) (uri method : String)
    (body : Body) (s : σ) (req : fasthttp.Request Bytes)
    (hreq : newRequest D a uri method body = .ok req)
    (hcode : (a.client.Do req s).1.resp.StatusCode = 200) :
    doRequest D a uri method body s
      = (.ok (a.client.Do req s).1.resp.Body, (a.client.Do req s).2) := by
  rw [doRequest_of_request D a uri method body s req hreq]
  simp [hcode]

theorem SetOp_run_eq (D : Deps Bytes) (a : APIBackend Bytes σ) (signature : tasks.Signature)
    (op : SetOp) (s : σ) :
    op.run D a signature s
      = errorOf (doTaskRequest D a signature.UUID "PUT" (some (op.payload D)) s) := by
  cases op <;> rfl

theorem doTaskRequest_put_status_ne (D : Deps Bytes) (a : APIBackend Bytes σ)
    (taskUUID : String) (u : UpdateTask) (b : Bytes) (s : σ)
    (hb : D.Marshal (some u) = .ok b)
    (hcode : (a.client.Do (putTaskRequest a taskUUID b) s).1.resp.StatusCode ≠ 200) :
    doTaskRequest D a taskUUID "PUT" (some u) s
      = (.error (statusError "PUT" ("/tasks/" ++ taskUUID)
            (a.client.Do (putTaskRequest a taskUUID b) s).1.resp.StatusCode),
          (a.client.Do (putTaskRequest a taskUUID b) s).2) := by
  unfold doTaskRequest
  rw [doRequest_of_status_ne D a _ _ _ s _ (newRequest_putTask D a taskUUID u b hb) hcode]

theorem doTaskRequest_get_status_ne (D : Deps Bytes) (a : APIBackend Bytes σ)
    (taskUUID : String) (p : Option UpdateTask) (s : σ)
    (hcode : (a.client.Do (getTaskRequest a taskUUID) s).1.resp.StatusCode ≠ 200) :
    doTaskRequest D a taskUUID "GET" p s
      = (.error (statusError "GET" ("/tasks/" ++ taskUUID)
            (a.client.Do (getTaskRequest a taskUUID) s).1.resp.StatusCode),
          (a.client.Do (getTaskRequest a taskUUID) s).2) := by
  unfold doTaskRequest
  rw [doRequest_of_status_ne D a _ _ _ s _ (newRequest_getTask D a taskUUID p) hcode]

theorem doJobRequest_get_status_ne (D : Deps Bytes) (a : APIBackend Bytes σ)
    (jobUUID : String) (s : σ)
    (hcode : (a.client.Do (getJobRequest a jobUUID) s).1.resp.StatusCode ≠ 200) :
    doJobRequest D a jobUUID "GET" s
      = (.error (statusError "GET" ("/jobs/" ++ jobUUID)
            (a.client.Do (getJobRequest a jobUUID) s).1.resp.StatusCode),
          (a.client.Do (getJobRequest a jobUUID) s).2) := by
  unfold doJobRequest
  rw [doRequest_of_status_ne D a _ _ _ s _ (newRequest_getJob D a jobUUID) hcode]

theorem statusError_carries (method uri : String) (code : Int) :
    method.data <:+: (statusError method uri code).data
      ∧ uri.data <:+: (statusError method uri code).data
      ∧ (toString code).data <:+: (statusError method uri code).data := by
  simp only [statusError, String.data_append]
  refine ⟨?_, ?_, ?_⟩
  · exact ⟨"error calling to ".data, " ".data ++ uri.data ++ " with status code ".data
      ++ (toString code).data, by simp⟩
  · exact ⟨"error calling to ".data ++ method.data ++ " ".data,
      " with status code ".data ++ (toString code).data, by simp⟩
  · exact ⟨"error calling to ".data ++ method.data ++ " ".data ++ uri.data
      ++ " with status code ".data, [], by simp⟩

/-- C4. A response whose status code is not 200 (201, 204 and 404 included) makes
`doRequest` return no bytes and the error whose message is made of the method
as the caller passed it, the path and the code; `GetState`, the six `SetState`
operations, `GroupCompleted` and `GroupTaskStates` return that error, with a
nil or false result. -/
theorem non200_status_is_error (D : Deps Bytes) (a : APIBackend Bytes σ) (s : σ) (code : Int)
    (hcode : code ≠ 200) :
    (∀ (uri method : String) (body : Body) (req : fasthttp.Request Bytes),
        newRequest D a uri method body = .ok req →
        (a.client.Do req s).1.resp.StatusCode = code →
        doRequest D a uri method body s
          = (.error (statusError method uri code), (a.client.Do req s).2))
      ∧ (∀ method uri : String,
          statusError method uri code
              = "error calling to " ++ method ++ " " ++ uri ++ " with status code "
                ++ toString code
            ∧ method.data <:+: (statusError method uri code).data
            ∧ uri.data <:+: (statusError method uri code).data
            ∧ (toString code).data <:+: (statusError method uri code).data)
      ∧ (∀ taskUUID : String,
          (a.client.Do (getTaskRequest a taskUUID) s).1.resp.StatusCode = code →
          GetState D a taskUUID s
            = ((none, some (statusError "GET" ("/tasks/" ++ taskUUID) code)),
                (a.client.Do (getTaskRequest a taskUUID) s).2))
      ∧ (∀ (op : SetOp) (signature : tasks.Signature) (b : Bytes),
          D.Marshal (some (op.payload D)) = .ok b →
          (a.client.Do (putTaskRequest a signature.UUID b) s).1.resp.StatusCode = code →
          op.run D a signature s
            = (some (statusError "PUT" ("/tasks/" ++ signature.UUID) code),
                (a.client.Do (putTaskRequest a signature.UUID b) s).2))
      ∧ (∀ (groupUUID : String) (n : Int),
          (a.client.Do (getJobRequest a groupUUID) s).1.resp.StatusCode = code →
          GroupCompleted D a groupUUID n s
            = ((false, some (statusError "GET" ("/jobs/" ++ groupUUID) code)),
                (a.client.Do (getJobRequest a groupUUID) s).2))
      ∧ (∀ (groupUUID : String) (n : Int),
          (a.client.Do (getJobRequest a groupUUID) s).1.resp.StatusCode = code →
          GroupTaskStates D a groupUUID n s
            = (([], some (statusError "GET" ("/jobs/" ++ groupUUID) code)),
                (a.client.Do (getJobRequest a groupUUID) s).2)) := by
  refine ⟨?_, ?_, ?_, ?_, ?_, ?_⟩
  · intro uri method body req hreq hs
    rw [doRequest_of_status_ne D a uri method body s req hreq (by rw [hs]; exact hcode), hs]
  · intro method uri
    exact ⟨rfl, statusError_carries method uri code⟩
  · intro taskUUID hs
    unfold GetState
    rw [doTaskRequest_get_status_ne D a taskUUID none s (by rw [hs]; exact hcode), hs]
  · intro op signature b hb hs
    rw [SetOp_run_eq,
      doTaskRequest_put_status_ne D a signature.UUID _ b s hb (by rw [hs]; exact hcode), hs]
    rfl
  · intro groupUUID n hs
    unfold GroupCompleted
    rw [doJobRequest_get_status_ne D a groupUUID s (by rw [hs]; exact hcode), hs]
  · intro groupUUID n hs
    unfold GroupTaskStates
    rw [doJobRequest_get_status_ne D a groupUUID s (by rw [hs]; exact hcode), hs]

/-- Witness of C4: `GET /tasks/t1` answered with 404, a `PUT` answered with 204
and `GET /jobs/g1` answered with 201. -/
theorem non200_status_is_error_witness :
    GetState wireDeps (fixedBackend (status 404)) "t1" ()
        = ((none, some "error calling to GET /tasks/t1 with status code 404"), ())
      ∧ SetStateStarted wireDeps (fixedBackend (status 204)) { UUID := "t1", Name := "add" } ()
        = (some "error calling to PUT /tasks/t1 with status code 204", ())
      ∧ GroupCompleted wireDeps (fixedBackend (status 201)) "g1" 0 ()
        = ((false, some "error calling to GET /jobs/g1 with status code 201"), ()) :=
  ⟨((non200_status_is_error wireDeps (fixedBackend (status 404)) () 404 (by decide)).2.2.1
      "t1" rfl).trans (by decide),
   ((non200_status_is_error wireDeps (fixedBackend (status 204)) () 204 (by decide)).2.2.2.1
      SetOp.Started { UUID := "t1", Name := "add" } _ rfl rfl).trans (by decide),
   ((non200_status_is_error wireDeps (fixedBackend (status 201)) () 201 (by decide)).2.2.2.2.1
      "g1" 0 rfl).trans (by decide)⟩

/-! ## Decoding failures -/

theorem parseError_ne_statusError (uuid method uri : String) (code : Int) :
    parseError uuid ≠ statusError method uri code := by
  intro h
  have hp : "error parsing task ".data
      = [(101 : Nat), 114, 114, 111, 114, 32, 112].map Char.ofNat ++ "arsing task ".data := by
    decide
  have hc : "error calling to ".data
      = [(101 : Nat), 114, 114, 111, 114, 32, 99].map Char.ofNat ++ "alling to ".data := by
    decide
  have h2 := congrArg String.data h
  simp only [parseError, statusError, String.data_append, hp, hc, List.map, List.cons_append,
    List.cons.injEq] at h2
  simp at h2

theorem doTaskRequest_of_status_ok (D : Deps Bytes) (a : APIBackend Bytes σ)
    (taskUUID method : String) (body : Option UpdateTask) (s : σ)
    (req : fasthttp.Request Bytes)
    (hreq : newRequest D a ("/tasks/" ++ taskUUID) method (Body.updateTask body) = .ok req)
    (hcode : (a.client.Do req s).1.resp.StatusCode = 200) :
    doTaskRequest D a taskUUID method body s
      = (match D.UnmarshalTask (a.client.Do req s).1.resp.Body with
          | .error _ => .error (parseError taskUUID)
          | .ok task => .ok task, (a.client.Do req s).2) := by
  unfold doTaskRequest
  rw [doRequest_of_status_ok D a _ _ _ s req hreq hcode]
  dsimp only
  cases D.UnmarshalTask (a.client.Do req s).1.resp.Body <;> rfl

theorem doJobRequest_of_status_ok (D : Deps Bytes) (a : APIBackend Bytes σ)
    (jobUUID method : String) (s : σ) (req : fasthttp.Request Bytes)
    (hreq : newRequest D a ("/jobs/" ++ jobUUID) method Body.nil = .ok req)
    (hcode : (a.client.Do req s).1.resp.StatusCode = 200) :
    doJobRequest D a jobUUID method s
      = (match D.UnmarshalJob (a.client.Do req s).1.resp.Body with
          | .error _ => .error (parseError jobUUID)
          | .ok job => .ok job, (a.client.Do req s).2) := by
  unfold doJobRequest
  rw [doRequest_of_status_ok D a _ _ _ s req hreq hcode]
  dsimp only
  cases D.UnmarshalJob (a.client.Do req s).1.resp.Body <;> rfl

/-- C9. When the exchange ends with status 200 and the body does not parse into
the entity asked for, `doTaskRequest` and `doJobRequest`, and with them
`GetState`, the six `SetState` operations, `GroupCompleted` and
`GroupTaskStates`, return the error `error parsing task` followed by the
resource id; that message is never the message `doRequest` gives for a status
code, whatever the method, the path and the code. -/
theorem decode_failure_names_resource (D : Deps Bytes) (a : APIBackend Bytes σ) (s : σ) :
    (∀ (taskUUID method : String) (body : Option UpdateTask) (req : fasthttp.Request Bytes)
        (e : String),
        newRequest D a ("/tasks/" ++ taskUUID) method (Body.updateTask body) = .ok req →
        (a.client.Do req s).1.resp.StatusCode = 200 →
        D.UnmarshalTask (a.client.Do req s).1.resp.Body = .error e →
        doTaskRequest D a taskUUID method body s
          = (.error (parseError taskUUID), (a.client.Do req s).2))
      ∧ (∀ (jobUUID method : String) (req : fasthttp.Request Bytes) (e : String),
          newRequest D a ("/jobs/" ++ jobUUID) method Body.nil = .ok req →
          (a.client.Do req s).1.resp.StatusCode = 200 →
          D.UnmarshalJob (a.client.Do req s).1.resp.Body = .error e →
          doJobRequest D a jobUUID method s
            = (.error (parseError jobUUID), (a.client.Do req s).2))
      ∧ (∀ (taskUUID e : String),
          (a.client.Do (getTaskRequest a taskUUID) s).1.resp.StatusCode = 200 →
          D.UnmarshalTask (a.client.Do (getTaskRequest a taskUUID) s).1.resp.Body = .error e →
          GetState D a taskUUID s
            = ((none, some (parseError taskUUID)),
                (a.client.Do (getTaskRequest a taskUUID) s).2))
      ∧ (∀ (op : SetOp) (signature : tasks.Signature) (b : Bytes) (e : String),
          D.Marshal (some (op.payload D)) = .ok b →
          (a.client.Do (putTaskRequest a signature.UUID b) s).1.resp.StatusCode = 200 →
          D.UnmarshalTask (a.client.Do (putTaskRequest a signature.UUID b) s).1.resp.Body
            = .error e →
          op.run D a signature s
            = (some (parseError signature.UUID),
                (a.client.Do (putTaskRequest a signature.UUID b) s).2))
      ∧ (∀ (groupUUID e : String) (n : Int),
          (a.client.Do (getJobRequest a groupUUID) s).1.resp.StatusCode = 200 →
          D.UnmarshalJob (a.client.Do (getJobRequest a groupUUID) s).1.resp.Body = .error e →
          GroupCompleted D a groupUUID n s
              = ((false, some (parseError groupUUID)),
                  (a.client.Do (getJobRequest a groupUUID) s).2)
            ∧ GroupTaskStates D a groupUUID n s
              = (([], some (parseError groupUUID)),
                  (a.client.Do (getJobRequest a groupUUID) s).2))
      ∧ (∀ uuid : String,
          parseError uuid = "error parsing task " ++ uuid
            ∧ uuid.data <:+: (parseError uuid).data)
      ∧ (∀ (uuid method uri : String) (code : Int),
          parseError uuid ≠ statusError method uri code) := by
  refine ⟨?_, ?_, ?_, ?_, ?_, ?_, ?_⟩
  · intro taskUUID method body req e hreq hs he
    rw [doTaskRequest_of_status_ok D a taskUUID method body s req hreq hs, he]
  · intro jobUUID method req e hreq hs he
    rw [doJobRequest_of_status_ok D a jobUUID method s req hreq hs, he]
  · intro taskUUID e hs he
    unfold GetState
    rw [doTaskRequest_of_status_ok D a taskUUID "GET" none s _
      (newRequest_getTask D a taskUUID none) hs, he]
  · intro op signature b e hb hs he
    rw [SetOp_run_eq, doTaskRequest_of_status_ok D a signature.UUID "PUT" _ s _
      (newRequest_putTask D a signature.UUID _ b hb) hs, he]
    rfl
  · intro groupUUID e n hs he
    unfold GroupCompleted GroupTaskStates
    rw [doJobRequest_of_status_ok D a groupUUID "GET" s _ (newRequest_getJob D a groupUUID) hs,
      he]
    exact ⟨rfl, rfl⟩
  · intro uuid
    refine ⟨rfl, ?_⟩
    simp only [parseError, String.data_append]
    exact ⟨"error parsing task ".data, [], by simp⟩
  · intro uuid method uri code
    exact parseError_ne_statusError uuid method uri code

/-- Witness of C9: a 200 whose body is an HTML page, read as a task and as a job. -/
theorem decode_failure_names_resource_witness :
    GetState wireDeps (fixedBackend (ok200 (Wire.text "<html>"))) "t1" ()
        = ((none, some "error parsing task t1"), ())
      ∧ GroupCompleted wireDeps (fixedBackend (ok200 (Wire.text "<html>"))) "g1" 3 ()
        = ((false, some "error parsing task g1"), ()) :=
  ⟨((decode_failure_names_resource wireDeps (fixedBackend (ok200 (Wire.text "<html>"))) ()).2.2.1
      "t1" _ rfl rfl).trans (by decide),
   (((decode_failure_names_resource wireDeps (fixedBackend (ok200 (Wire.text "<html>")))
      ()).2.2.2.2.1 "g1" _ 3 rfl rfl).1).trans (by decide)⟩

/-! ## A failed exchange -/

/-- C5 (what the code does). The error `client.Do` returns is dropped: when `Do`
reports a failure and leaves the response with the status code 200 that
fasthttp gives a response never filled, `doRequest` returns the body of that
response and no error. -/
theorem doRequest_discards_Do_error (D : Deps Bytes) (a : APIBackend Bytes σ)
    (uri method : String) (body : Body) (s : σ) (req : fasthttp.Request Bytes)
    (hreq : newRequest D a uri method body = .ok req)
    (hleft : (a.client.Do req s).1.resp.StatusCode = 200) :
    ∀ e : String, (a.client.Do req s).1.err = some e →
      doRequest D a uri method body s
        = (.ok (a.client.Do req s).1.resp.Body, (a.client.Do req s).2) := by
  intro e _
  exact doRequest_of_status_ok D a uri method body s req hreq hleft

/-- C5 at a refused connection: `doRequest` returns an empty body and a nil
error, and `GetState` reports a decoding failure. -/
theorem doRequest_discards_Do_error_witness :
    ((fixedBackend refused).client.Do (getTaskRequest (fixedBackend refused) "t1") ()).1.err
        = some "dial tcp 127.0.0.1:80: connect: connection refused"
      ∧ doRequest wireDeps (fixedBackend refused) "/tasks/t1" "GET" Body.nil ()
        = (.ok Wire.empty, ())
      ∧ GetState wireDeps (fixedBackend refused) "t1" ()
        = ((none, some "error parsing task t1"), ()) :=
  ⟨rfl,
   doRequest_discards_Do_error wireDeps (fixedBackend refused) "/tasks/t1" "GET" Body.nil ()
     (getTaskRequest (fixedBackend refused) "t1") rfl rfl _ rfl,
   by decide⟩

/-! ## The requests on the wire -/

theorem newRequest_recording (D : Deps Bytes) (a : APIBackend Bytes σ) (uri method : String)
    (body : Body) :
    newRequest D (recording a) uri method body = newRequest D a uri method body := rfl

theorem doRequest_recording (D : Deps Bytes) (a : APIBackend Bytes σ) (uri method : String)
    (body : Body) (s : σ) (log : List (fasthttp.Request Bytes)) :
    doRequest D (recording a) uri method body (s, log)
      = ((doRequest D a uri method body s).1,
          ((doRequest D a uri method body s).2,
            log ++ sentBy (newRequest D a uri method body))) := by
  unfold doRequest
  rw [newRequest_recording]
  cases newRequest D a uri method body with
  | error e => simp [sentBy]
  | ok req =>
    simp only [recording, sentBy]
    split_ifs <;> rfl

theorem doTaskRequest_recording (D : Deps Bytes) (a : APIBackend Bytes σ)
    (taskUUID method : String) (body : Option UpdateTask) (s : σ)
    (log : List (fasthttp.Request Bytes)) :
    doTaskRequest D (recording a) taskUUID method body (s, log)
      = ((doTaskRequest D a taskUUID method body s).1,
          ((doTaskRequest D a taskUUID method body s).2,
            log ++ sentBy (newRequest D a ("/tasks/" ++ taskUUID) method
              (Body.updateTask body)))) := by
  unfold doTaskRequest
  rw [doRequest_recording]
  rcases hr : doRequest D a ("/tasks/" ++ taskUUID) method (Body.updateTask body) s
    with ⟨r, s1⟩
  cases r with
  | error e => rfl
  | ok bytes =>
    dsimp only
    cases D.UnmarshalTask bytes <;> rfl

theorem SetOp_run_recording (D : Deps Bytes) (a : APIBackend Bytes σ)
    (signature : tasks.Signature) (op : SetOp) (s : σ) (log : List (fasthttp.Request Bytes)) :
    op.run D (recording a) signature (s, log)
      = ((op.run D a signature s).1,
          ((op.run D a signature s).2,
            log ++ sentBy (newRequest D a ("/tasks/" ++ signature.UUID) "PUT"
              (Body.updateTask (some (op.payload D)))))) := by
  rw [SetOp_run_eq, SetOp_run_eq, doTaskRequest_recording]
  rcases doTaskRequest D a signature.UUID "PUT" (some (op.payload D)) s with ⟨r, s1⟩
  cases r <;> rfl

theorem errorOf_fst {α : Type} (r : Except String α × σ) :
    ((errorOf r).1 = none ↔ ∃ t, r.1 = .ok t) ∧ (∀ e, (errorOf r).1 = some e ↔ r.1 = .error e)
      ∧ (errorOf r).2 = r.2 := by
  rcases r with ⟨r, s1⟩
  cases r <;> simp [errorOf]

/-- C7. Each of the six `SetState` operations is one call of `doTaskRequest` with
the task's UUID, the method `PUT` and the payload of its target state: the
results only for Success, the error text only for Failure, so that no payload
carries both.  On the wire this is at most one request, with method `PUT`, the
URI of `/tasks/` followed by the UUID and the serialised payload as body (no
request when `json.Marshal` fails), and the operation returns the error of that
call, and none when the call returns none. -/
theorem SetState_puts_payload (D : Deps Bytes) (a : APIBackend Bytes σ)
    (signature : tasks.Signature) (s : σ) :
    SetStatePending D a signature s
        = errorOf (doTaskRequest D a signature.UUID "PUT"
            (some { Status := D.StatePending, Result := [], Error := "" }) s)
      ∧ SetStateReceived D a signature s
        = errorOf (doTaskRequest D a signature.UUID "PUT"
            (some { Status := D.StateReceived, Result := [], Error := "" }) s)
      ∧ SetStateStarted D a signature s
        = errorOf (doTaskRequest D a signature.UUID "PUT"
            (some { Status := D.StateStarted, Result := [], Error := "" }) s)
      ∧ SetStateRetry D a signature s
        = errorOf (doTaskRequest D a signature.UUID "PUT"
            (some { Status := D.StateRetry, Result := [], Error := "" }) s)
      ∧ (∀ results : List (Option tasks.TaskResult),
          SetStateSuccess D a signature results s
            = errorOf (doTaskRequest D a signature.UUID "PUT"
                (some { Status := D.StateSuccess, Result := results, Error := "" }) s))
      ∧ (∀ err : String,
          SetStateFailure D a signature err s
            = errorOf (doTaskRequest D a signature.UUID "PUT"
                (some { Status := D.StateFailure, Result := [], Error := err }) s))
      ∧ (∀ op : SetOp,
          ((op.payload D).Result = [] ∨ (op.payload D).Error = "")
            ∧ op.run D a signature s
              = errorOf (doTaskRequest D a signature.UUID "PUT" (some (op.payload D)) s)
            ∧ (∀ (log : List (fasthttp.Request Bytes)) (b : Bytes),
                D.Marshal (some (op.payload D)) = .ok b →
                (op.run D (recording a) signature (s, log)).2.2
                  = log ++ [{ URI := a.cnf.APIConfig.BaseURL ++ ("/tasks/" ++ signature.UUID),
                              Method := "PUT", ContentType := "application/json",
                              Body := some b }])
            ∧ (∀ (log : List (fasthttp.Request Bytes)) (e : String),
                D.Marshal (some (op.payload D)) = .error e →
                (op.run D (recording a) signature (s, log)).2.2 = log
                  ∧ (op.run D a signature s).1
                    = some (marshalError "PUT" ("/tasks/" ++ signature.UUID)))
            ∧ ((op.run D a signature s).1 = none
                ↔ ∃ t, (doTaskRequest D a signature.UUID "PUT" (some (op.payload D)) s).1
                    = .ok t)
            ∧ (∀ e : String, (op.run D a signature s).1 = some e
                ↔ (doTaskRequest D a signature.UUID "PUT" (some (op.payload D)) s).1
                    = .error e)) := by
  refine ⟨rfl, rfl, rfl, rfl, fun _ => rfl, fun _ => rfl, ?_⟩
  intro op
  refine ⟨?_, SetOp_run_eq D a signature op s, ?_, ?_, ?_, ?_⟩
  · cases op <;> simp [SetOp.payload]
  · intro log b hb
    rw [SetOp_run_recording, newRequest_putTask D a signature.UUID _ b hb]
    rfl
  · intro log e he
    rw [SetOp_run_recording, newRequest_body D a _ _ _ ToUpper_PUT_ne, he]
    refine ⟨by simp [sentBy], ?_⟩
    rw [SetOp_run_eq]
    simp [doTaskRequest, doRequest, newRequest_body D a _ _ _ ToUpper_PUT_ne, he, errorOf]
  · rw [SetOp_run_eq]
    exact (errorOf_fst _).1
  · rw [SetOp_run_eq]
    exact (errorOf_fst _).2.1

/-- C7 on an input: `SetStateFailure` on the one-record store hands the client one
`PUT` of `/tasks/t1` whose body is the payload with the error text and no
results, and returns no error. -/
theorem SetState_puts_payload_witness :
    (SetStateFailure wireDeps (recording oneTaskBackend) { UUID := "t1", Name := "add" }
        "division by zero" (mkTask "t1" "STARTED", [])).2.2
        = [{ URI := "http://store/tasks/t1", Method := "PUT", ContentType := "application/json",
             Body := some (Wire.update (some { Status := "FAILURE", Result := [],
                                                Error := "division by zero" })) }]
      ∧ (SetStateFailure wireDeps oneTaskBackend { UUID := "t1", Name := "add" }
          "division by zero" (mkTask "t1" "STARTED")).1 = none :=
  ⟨(((SetState_puts_payload wireDeps oneTaskBackend { UUID := "t1", Name := "add" }
        (mkTask "t1" "STARTED")).2.2.2.2.2.2 (SetOp.Failure "division by zero")).2.2.1
      [] _ rfl).trans rfl,
   by decide⟩

/-- C8. `doRequest` attaches a body only for a method other than `GET`: when the
upper-cased method is `GET` the request has no body even if a body value is
given; for any other method a non-nil body value is serialised and attached;
for the nil body nothing is attached.  The request built this way is the one
request handed to the client, and none is handed over when serialising fails. -/
theorem body_only_for_non_GET (D : Deps Bytes) (a : APIBackend Bytes σ) (uri method : String) :
    (∀ body : Body, strings.ToUpper method = "GET" →
        newRequest D a uri method body
          = .ok { URI := a.cnf.APIConfig.BaseURL ++ uri, Method := "GET",
                  ContentType := "application/json", Body := none })
      ∧ (∀ (p : Option UpdateTask) (b : Bytes), strings.ToUpper method ≠ "GET" →
          D.Marshal p = .ok b →
          newRequest D a uri method (Body.updateTask p)
            = .ok { URI := a.cnf.APIConfig.BaseURL ++ uri, Method := strings.ToUpper method,
                    ContentType := "application/json", Body := some b })
      ∧ (∀ (p : Option UpdateTask) (e : String), strings.ToUpper method ≠ "GET" →
          D.Marshal p = .error e →
          newRequest D a uri method (Body.updateTask p) = .error (marshalError method uri))
      ∧ newRequest D a uri method Body.nil
          = .ok { URI := a.cnf.APIConfig.BaseURL ++ uri, Method := strings.ToUpper method,
                  ContentType := "application/json", Body := none }
      ∧ (∀ (body : Body) (s : σ) (log : List (fasthttp.Request Bytes))
          (req : fasthttp.Request Bytes),
          newRequest D a uri method body = .ok req →
          (doRequest D (recording a) uri method body (s, log)).2.2 = log ++ [req])
      ∧ (∀ (body : Body) (s : σ) (log : List (fasthttp.Request Bytes)) (e : String),
          newRequest D a uri method body = .error e →
          (doRequest D (recording a) uri method body (s, log)).2.2 = log
            ∧ doRequest D a uri method body s = (.error e, s)) := by
  refine ⟨?_, ?_, ?_, ?_, ?_, ?_⟩
  · intro body hm
    rw [newRequest_get D a uri method body hm]
    simp [acquireRequest, hm]
  · intro p b hm hb
    rw [newRequest_body D a uri method p hm, hb]
    rfl
  · intro p e hm he
    rw [newRequest_body D a uri method p hm, he]
  · rw [newRequest_nil]
    rfl
  · intro body s log req hreq
    rw [doRequest_recording, hreq]
    rfl
  · intro body s log e he
    rw [doRequest_recording, he]
    refine ⟨by simp [sentBy], ?_⟩
    simp [doRequest, he]

/-- C8 on inputs: `get` and `Get` with a body value send no body, `put` with a body
value sends its serialisation, `put` with the nil body sends none. -/
theorem body_only_for_non_GET_witness :
    newRequest wireDeps (fixedBackend (status 200)) "/tasks/t1" "get"
        (Body.updateTask (some UpdateTask.zero))
        = .ok { URI := "http://store/tasks/t1", Method := "GET",
                ContentType := "application/json", Body := none }
      ∧ newRequest wireDeps (fixedBackend (status 200)) "/tasks/t1" "put"
        (Body.updateTask (some UpdateTask.zero))
        = .ok { URI := "http://store/tasks/t1", Method := "PUT",
                ContentType := "application/json",
                Body := some (Wire.update (some UpdateTask.zero)) }
      ∧ newRequest wireDeps (fixedBackend (status 200)) "/tasks/t1" "put" Body.nil
        = .ok { URI := "http://store/tasks/t1", Method := "PUT",
                ContentType := "application/json", Body := none } :=
  ⟨((body_only_for_non_GET wireDeps (fixedBackend (status 200)) "/tasks/t1" "get").1
      _ (by decide)).trans rfl,
   ((body_only_for_non_GET wireDeps (fixedBackend (status 200)) "/tasks/t1" "put").2.1
      _ _ (by decide) rfl).trans rfl,
   ((body_only_for_non_GET wireDeps (fixedBackend (status 200)) "/tasks/t1" "put").2.2.2.1).trans
      rfl⟩

/-! ## The operations without effect -/

/-- C10. `InitGroup`, `PurgeState` and `PurgeGroupMeta` return no error and
`TriggerChord` returns true and no error, for every id and every list of task
ids; none of them hands a request to the client or changes the world, and
called again any number of times each gives the same result. -/
theorem noop_operations (a : APIBackend Bytes σ) (uuid : String) (taskUUIDs : List String)
    (s : σ) (log : List (fasthttp.Request Bytes)) (n : Nat) :
    (InitGroup a uuid taskUUIDs s = (none, s)
        ∧ PurgeState a uuid s = (none, s)
        ∧ PurgeGroupMeta a uuid s = (none, s)
        ∧ TriggerChord a uuid s = ((true, none), s))
      ∧ (InitGroup (recording a) uuid taskUUIDs (s, log) = (none, (s, log))
        ∧ PurgeState (recording a) uuid (s, log) = (none, (s, log))
        ∧ PurgeGroupMeta (recording a) uuid (s, log) = (none, (s, log))
        ∧ TriggerChord (recording a) uuid (s, log) = ((true, none), (s, log)))
      ∧ (InitGroup a uuid taskUUIDs ((fun w => (InitGroup a uuid taskUUIDs w).2)^[n] s) = (none, s)
        ∧ PurgeState a uuid ((fun w => (PurgeState a uuid w).2)^[n] s) = (none, s)
        ∧ PurgeGroupMeta a uuid ((fun w => (PurgeGroupMeta a uuid w).2)^[n] s) = (none, s)
        ∧ TriggerChord a uuid ((fun w => (TriggerChord a uuid w).2)^[n] s) = ((true, none), s)) := by
  refine ⟨⟨rfl, rfl, rfl, rfl⟩, ⟨rfl, rfl, rfl, rfl⟩, ?_, ?_, ?_, ?_⟩
  · have h : (fun w : σ => (InitGroup a uuid taskUUIDs w).2) = id := rfl
    rw [h, Function.iterate_id]; rfl
  · have h : (fun w : σ => (PurgeState a uuid w).2) = id := rfl
    rw [h, Function.iterate_id]; rfl
  · have h : (fun w : σ => (PurgeGroupMeta a uuid w).2) = id := rfl
    rw [h, Function.iterate_id]; rfl
  · have h : (fun w : σ => (TriggerChord a uuid w).2) = id := rfl
    rw [h, Function.iterate_id]; rfl

/-! ## Writing a state and reading it back -/

theorem doTaskRequest_put_state (D : Deps Bytes) (a : APIBackend Bytes σ) (taskUUID : String)
    (u : UpdateTask) (b : Bytes) (s : σ) (hb : D.Marshal (some u) = .ok b) :
    (doTaskRequest D a taskUUID "PUT" (some u) s).2
      = (a.client.Do (putTaskRequest a taskUUID b) s).2 := by
  unfold doTaskRequest
  rw [doRequest_of_request D a _ _ _ s _ (newRequest_putTask D a taskUUID u b hb)]
  split_ifs
  · rfl
  · dsimp only
    cases D.UnmarshalTask (a.client.Do (putTaskRequest a taskUUID b) s).1.resp.Body <;> rfl

theorem GetState_of_stored (D : Deps Bytes) (a : APIBackend Bytes σ) (taskUUID : String)
    (s : σ) (t : Task)
    (hcode : (a.client.Do (getTaskRequest a taskUUID) s).1.resp.StatusCode = 200)
    (hbody : D.UnmarshalTask (a.client.Do (getTaskRequest a taskUUID) s).1.resp.Body = .ok t) :
    GetState D a taskUUID s
      = ((some (stateOf t), none), (a.client.Do (getTaskRequest a taskUUID) s).2) := by
  unfold GetState
  rw [doTaskRequest_of_status_ok D a taskUUID "GET" none s _
    (newRequest_getTask D a taskUUID none) hcode, hbody]
  rfl

theorem SetOp_run_marshal_error (D : Deps Bytes) (a : APIBackend Bytes σ)
    (signature : tasks.Signature) (op : SetOp) (s : σ) (e : String)
    (he : D.Marshal (some (op.payload D)) = .error e) :
    op.run D a signature s = (some (marshalError "PUT" ("/tasks/" ++ signature.UUID)), s) := by
  rw [SetOp_run_eq]
  simp [doTaskRequest, doRequest, newRequest_body D a _ _ _ ToUpper_PUT_ne, he, errorOf]

/-- C6 as the claim words it fails: the store `oneTaskBackend` applies every `PUT`
of its record as the body describes and answers every `GET` with the stored
record, yet `SetStateSuccess` with the result `NaN`, which `json.Marshal`
rejects, returns the marshal error without sending anything, and the
`GetState` that follows returns the state `PENDING` and no results. -/
theorem SetState_then_GetState_counterexample :
    (∀ (t0 : Task) (u : UpdateTask), t0.UUID = "t1" →
        storedTask
            (oneTaskBackend.client.Do
              (putTaskRequest oneTaskBackend "t1" (Wire.update (some u))) t0).2 "t1"
          = some { t0 with Status := u.Status, Result := u.Result, Error := u.Error })
      ∧ (∀ t0 : Task, t0.UUID = "t1" →
          oneTaskBackend.client.Do (getTaskRequest oneTaskBackend "t1") t0
            = (ok200 (Wire.task t0), t0))
      ∧ SetStateSuccess nanDeps oneTaskBackend { UUID := "t1", Name := "div" }
          [some { Value := "NaN" }] (mkTask "t1" "PENDING")
        = (some "error parsing to json while calling PUT/tasks/t1", mkTask "t1" "PENDING")
      ∧ GetState nanDeps oneTaskBackend "t1"
          (SetStateSuccess nanDeps oneTaskBackend { UUID := "t1", Name := "div" }
            [some { Value := "NaN" }] (mkTask "t1" "PENDING")).2
        = ((some { TaskUUID := "t1", State := "PENDING", Results := [], Error := "" }, none),
            mkTask "t1" "PENDING")
      ∧ ¬ ∃ ts : tasks.TaskState,
          (GetState nanDeps oneTaskBackend "t1"
              (SetStateSuccess nanDeps oneTaskBackend { UUID := "t1", Name := "div" }
                [some { Value := "NaN" }] (mkTask "t1" "PENDING")).2).1 = (some ts, none)
            ∧ ts.State = nanDeps.StateSuccess
            ∧ ts.Results = [some { Value := "NaN" }] := by
  refine ⟨?_, ?_, by decide, by decide, ?_⟩
  · intro t0 u h0
    simp [oneTaskBackend, putTaskRequest, storedTask, h0]
  · intro t0 h0
    simp [oneTaskBackend, getTaskRequest, h0]
  · rintro ⟨ts, hts, hstate, -⟩
    have hval : (GetState nanDeps oneTaskBackend "t1"
        (SetStateSuccess nanDeps oneTaskBackend { UUID := "t1", Name := "div" }
          [some { Value := "NaN" }] (mkTask "t1" "PENDING")).2).1
        = (some { TaskUUID := "t1", State := "PENDING", Results := [], Error := "" }, none) := by
      decide
    rw [hval] at hts
    have hts2 : ts = { TaskUUID := "t1", State := "PENDING", Results := [], Error := "" } := by
      simpa using hts.symm
    subst hts2
    revert hstate
    decide

/-- C6 (amended). For a `SetState` operation whose payload `json.Marshal`
serialises (`hb`), against a remote store that applies this
`PUT /tasks/{id}` as the update its body describes (`hput`: after the exchange
the record stored under the id has the status, results and error of the body)
and then answers `GET /tasks/{id}` with the stored record (`hget`): the
operation followed by `GetState` on the same id returns a `TaskState` whose
`State` is the target state just set; after `SetStateSuccess` its results are
the given ones and its error is empty, after `SetStateFailure` its error is
the given one and it has no results. -/
theorem SetState_then_GetState (D : Deps Bytes) (a : APIBackend Bytes σ)
    (stored : σ → String → Option Task) (signature : tasks.Signature) (s : σ) (op : SetOp)
    (b : Bytes)
    (hb : D.Marshal (some (op.payload D)) = .ok b)
    (hput : ∃ t,
      stored (a.client.Do (putTaskRequest a signature.UUID b) s).2 signature.UUID = some t
        ∧ t.Status = (op.payload D).Status ∧ t.Result = (op.payload D).Result
        ∧ t.Error = (op.payload D).Error)
    (hget : ∀ t : Task,
      stored (a.client.Do (putTaskRequest a signature.UUID b) s).2 signature.UUID = some t →
      (a.client.Do (getTaskRequest a signature.UUID)
          (a.client.Do (putTaskRequest a signature.UUID b) s).2).1.resp.StatusCode = 200
        ∧ D.UnmarshalTask
            (a.client.Do (getTaskRequest a signature.UUID)
              (a.client.Do (putTaskRequest a signature.UUID b) s).2).1.resp.Body
          = .ok t) :
    ∃ ts : tasks.TaskState,
      (GetState D a signature.UUID (op.run D a signature s).2).1 = (some ts, none)
        ∧ ts.State = op.target D
        ∧ (∀ results, op = SetOp.Success results → ts.Results = results ∧ ts.Error = "")
        ∧ (∀ err, op = SetOp.Failure err → ts.Error = err ∧ ts.Results = []) := by
  obtain ⟨t, hst, hstatus, hresult, herror⟩ := hput
  have hs1 : (op.run D a signature s).2
      = (a.client.Do (putTaskRequest a signature.UUID b) s).2 := by
    rw [SetOp_run_eq, (errorOf_fst _).2.2]
    exact doTaskRequest_put_state D a signature.UUID _ b s hb
  rw [hs1]
  obtain ⟨hcode, hbody⟩ := hget t hst
  refine ⟨stateOf t, ?_, ?_, ?_, ?_⟩
  · rw [GetState_of_stored D a signature.UUID _ t hcode hbody]
  · exact hstatus
  · intro results hop
    subst hop
    exact ⟨hresult, herror⟩
  · intro err hop
    subst hop
    exact ⟨herror, hresult⟩

/-- Witness of C6 (amended): on the one-record store, `SetStateSuccess` with a
result on a pending task and `SetStateFailure` on a task that had a result,
each read back with `GetState`. -/
theorem SetState_then_GetState_witness :
    (∃ ts : tasks.TaskState,
        (GetState wireDeps oneTaskBackend "t1"
            (SetStateSuccess wireDeps oneTaskBackend { UUID := "t1", Name := "add" }
              [some { Value := "3" }] (mkTask "t1" "PENDING")).2).1 = (some ts, none)
          ∧ ts.State = "SUCCESS" ∧ ts.Results = [some { Value := "3" }] ∧ ts.Error = "")
      ∧ (∃ ts : tasks.TaskState,
        (GetState wireDeps oneTaskBackend "t1"
            (SetStateFailure wireDeps oneTaskBackend { UUID := "t1", Name := "add" }
              "division by zero" taskWithResult).2).1 = (some ts, none)
          ∧ ts.State = "FAILURE" ∧ ts.Error = "division by zero" ∧ ts.Results = []) := by
  have hg : ∀ (s1 t : Task), storedTask s1 "t1" = some t →
      (oneTaskBackend.client.Do (getTaskRequest oneTaskBackend "t1") s1).1.resp.StatusCode = 200
        ∧ wireDeps.UnmarshalTask
            (oneTaskBackend.client.Do (getTaskRequest oneTaskBackend "t1") s1).1.resp.Body
          = .ok t := by
    intro s1 t hst
    unfold storedTask at hst
    split_ifs at hst with h1
    cases hst
    simp [oneTaskBackend, getTaskRequest, h1, ok200, wireDeps]
  refine ⟨?_, ?_⟩
  · obtain ⟨ts, h1, h2, h3, _⟩ :=
      SetState_then_GetState wireDeps oneTaskBackend storedTask { UUID := "t1", Name := "add" }
        (mkTask "t1" "PENDING") (SetOp.Success [some { Value := "3" }])
        (Wire.update (some { Status := "SUCCESS", Result := [some { Value := "3" }],
                             Error := "" }))
        rfl ⟨_, rfl, rfl, rfl, rfl⟩ (hg _)
    exact ⟨ts, h1, h2, (h3 _ rfl).1, (h3 _ rfl).2⟩
  · obtain ⟨ts, h1, h2, _, h4⟩ :=
      SetState_then_GetState wireDeps oneTaskBackend storedTask { UUID := "t1", Name := "add" }
        taskWithResult (SetOp.Failure "division by zero")
        (Wire.update (some { Status := "FAILURE", Result := [], Error := "division by zero" }))
        rfl ⟨_, rfl, rfl, rfl, rfl⟩ (hg _)
    exact ⟨ts, h1, h2, (h4 _ rfl).1, (h4 _ rfl).2⟩

end Backends
